import Mathlib

/-
Verification of gacha.py: a shallow embedding of
src/gacha/providers/simple_pull_provider.py (SimplePullProvider) in Lean 4,
together with theorems settling the specification claims about it.

Modelling conventions:
- Rational numbers (ℚ) stand in for Python float64 rates and weights.
- Item, type and rank identifiers are natural numbers; display names and
  pool codes are strings.
- Python generators are embedded as functions returning the list of values
  the generator yields to a consumer, paired with a GenOutcome recording how
  the generator finished: normal completion, a `return value` statement
  (which in Python ends iteration WITHOUT yielding the value — it only
  becomes the StopIteration payload, invisible to a for-loop), or an
  uncaught exception.
- Randomness is made nondeterministic: `random.choices` and `random.choice`
  receive an oracle stream of natural numbers and pick the element at
  (oracle value mod population size); every element of the population is
  reachable for some oracle value, and the empty-population / nonpositive
  total-weight exceptions of the Python functions are modelled explicitly.
-/

namespace Gacha

/-- Modelled from the spec (section 6): a concrete item descriptor produced by
the Item Reference Resolver, whose code is not under src; the spec gives it
an id and a name. -/
structure VirtualItem where
  id : Nat
  name : String
deriving DecidableEq

/-- Modelled from the spec (section 3, WeightedItemEntry): the models.pulls.Item
class is not under src; the spec gives it an item id, a display name and a
per-unit weight (`rate` in the code). -/
structure Item where
  id : Nat
  name : String
  rate : ℚ
deriving DecidableEq

/-- Modelled from the spec (section 3, Pool): the models.pulls.Pool class is not
under src; the spec gives it a name and an ordered entry list. The code
constructs `Pool(name)` with an empty item list and appends to `pool.items`.
A Pool instance is a plain record, hence truthy in Python, so the
`if not pool` check in `pull` is equivalent to the None check. -/
structure Pool where
  name : String
  items : List Item
deriving DecidableEq

/-- Modelled from the spec (section 3, Pull): the models.pulls.Pull class is not
under src; the spec gives it an item id, display name, quantity and a rare
flag, and the code constructs it positionally in that order. -/
structure Pull where
  id : Nat
  name : String
  quantity : Int
  is_rare : Bool
deriving DecidableEq

/-- Modelled from the spec (section 6, Item Catalog Lookup): the catalog item
record returned by getItem, with a type id and a rank id. -/
structure CatalogItem where
  id : Nat
  item_type_id : Nat
  rank_id : Nat
deriving DecidableEq

/-- Modelled from the spec (section 6, Item Catalog Lookup): the item type
record, with the multi-unit flag and the quantity bounds used by the code as
`range(multi_pull_min, multi_pull_max)`. -/
structure ItemType where
  is_multi_pull : Bool
  multi_pull_min : Int
  multi_pull_max : Int
deriving DecidableEq

/-- Modelled from the spec (section 6, Item Catalog Lookup): the item rank
record with its rare flag. -/
structure ItemRank where
  is_rare : Bool
deriving DecidableEq

/-- Modelled from the spec (section 6): the entity provider behind
utils.entity_provider_utils.get_item / get_item_type / get_item_rank, whose
code is not under src; per the spec all three lookups return an optional
record, with not-found as a valid non-exceptional outcome. -/
structure EntityProvider where
  get_item : Nat → Option CatalogItem
  get_item_type : Nat → Option ItemType
  get_item_rank : Nat → Option ItemRank

/-- Modelled from the spec (section 3, LootTableGroup): the entities side of a
pool prototype loot table group, with a rate and item references. -/
structure LootTableGroup where
  rate : ℚ
  item_ids : List Nat
deriving DecidableEq

/-- Modelled from the spec (section 6, configuration input): a pool prototype
with code, name, availability flag and loot table. -/
structure PoolPrototype where
  code : String
  name : String
  is_available : Bool
  loot_table : List LootTableGroup
deriving DecidableEq

/-- Tolerance used by the near-zero rate comparison. -/
def tol : ℚ := 1 / 1000000000

/-- Modelled from the spec (sections 4.1 and 9): utils.isclose is not under
src; the spec mandates a tolerance-based approximate-equality check, not
exact float comparison. -/
def isclose (a b : ℚ) : Bool := |a - b| ≤ tol

/-- Embeds the resolution loop of SimplePullProvider._create_pools: for each
item id of a group, every item produced by item_resolver.resolve(item_id) is
appended, concatenating in resolution order. -/
def resolve_all (resolve : Nat → List VirtualItem) (ids : List Nat) : List VirtualItem :=
  (ids.map resolve).flatten

/-- Embeds the loot-table loop of SimplePullProvider._create_pools: folds over
the groups of one prototype, skipping groups with nonpositive rate, with no
item ids, or resolving to no items, and otherwise appending one weighted
entry per resolved item with the even per-item rate. -/
def build_pool_items (resolve : Nat → List VirtualItem)
    (groups : List LootTableGroup) : List Item :=
  groups.foldl (fun acc g =>
    if g.rate < 0 ∨ isclose g.rate 0 = true then acc
    else if g.item_ids.length = 0 then acc
    else
      let items := resolve_all resolve g.item_ids
      if items.length = 0 then acc
      else acc ++ items.map (fun it => Item.mk it.id it.name (g.rate / (items.length : ℚ)))) []

/-- Python dict assignment `d[k] = v`: overwrite the value in place when the
key is present (keeping insertion order), append otherwise. -/
def dictInsert (d : List (String × Pool)) (k : String) (v : Pool) : List (String × Pool) :=
  if d.any (fun p => p.1 == k) then
    d.map (fun p => if p.1 == k then (k, v) else p)
  else d ++ [(k, v)]

/-- Python dict lookup `d.get(k, None)`. -/
def dictGet (d : List (String × Pool)) (k : String) : Option Pool :=
  (d.find? (fun p => p.1 == k)).map (fun p => p.2)

/-- Embeds SimplePullProvider._create_pools: skip unavailable prototypes,
build the entry list from the loot table, discard pools with no entries,
and register the rest under their code. -/
def create_pools (protos : List PoolPrototype)
    (resolve : Nat → List VirtualItem) : List (String × Pool) :=
  protos.foldl (fun pools proto =>
    if proto.is_available = false then pools
    else
      let items := build_pool_items resolve proto.loot_table
      if items.length = 0 then pools
      else dictInsert pools proto.code (Pool.mk proto.name items)) []

/-- Embeds SimplePullProvider.get_pool_codes. -/
def get_pool_codes (pools : List (String × Pool)) : List String :=
  pools.map (fun p => p.1)

/-- Embeds SimplePullProvider.has_pool. -/
def has_pool (pools : List (String × Pool)) (code : String) : Bool :=
  (dictGet pools code).isSome

/-- The ValueError message raised for an unknown pool code (apostrophe of the
original message elided). -/
def notFoundMsg : String := "The specified pool does not exist."

/-- Embeds SimplePullProvider.get_pool_name: ValueError on an unknown code is
modelled as Except.error. -/
def get_pool_name (pools : List (String × Pool)) (code : String) : Except String String :=
  match dictGet pools code with
  | none => Except.error notFoundMsg
  | some pool => Except.ok pool.name

def DEFAULT_PULL_COUNT_MIN : Int := 1

def DEFAULT_PULL_COUNT_MAX : Int := 10

/-- The clamping step of SimplePullProvider.pull:
`max(self.pull_count_min, min(pull_count, self.pull_count_max))`. -/
def clamp_pull_count (n : Int) : Int :=
  max DEFAULT_PULL_COUNT_MIN (min n DEFAULT_PULL_COUNT_MAX)

/-- Models `random.choice(range(a, b))` with oracle k: range(a, b) has the
elements a, a+1, ..., b-1 when a < b, and choice picks one of them (the one
at index k mod (b - a)); on an empty range, choice raises IndexError,
modelled as none. -/
def rangeChoice (a b : Int) (k : Nat) : Option Int :=
  if a < b then some (a + (k : Int) % (b - a)) else none

/-- One step of the generator body of SimplePullProvider._pull_items, for one
sampled entry: either a Pull is yielded, or the generator executes
`return Pull(...)` on a missing catalog item (stopped), or
`choice(range(...))` raises on an empty range (failed). -/
inductive DrawStep where
  | yielded (p : Pull)
  | stopped (v : Pull)
  | failed
deriving DecidableEq

/-- The body of the per-sample loop of SimplePullProvider._pull_items: look up
the catalog item by the sampled entry id; on a miss, `return Pull(entry.id,
entry.name, 1, False)`; otherwise compute the rare flag from the rank and
the quantity from the type (a uniform draw from range(min, max) when the
type is multi-pull, 1 otherwise). -/
def draw_step (ep : EntityProvider) (pulled_item : Item) (k : Nat) : DrawStep :=
  match ep.get_item pulled_item.id with
  | none => DrawStep.stopped (Pull.mk pulled_item.id pulled_item.name 1 false)
  | some item =>
    let item_type := ep.get_item_type item.item_type_id
    let item_rank := ep.get_item_rank item.rank_id
    let is_rare := match item_rank with
      | some r => r.is_rare
      | none => false
    match item_type with
    | some t =>
      if t.is_multi_pull then
        match rangeChoice t.multi_pull_min t.multi_pull_max k with
        | some q => DrawStep.yielded (Pull.mk item.id pulled_item.name q is_rare)
        | none => DrawStep.failed
      else DrawStep.yielded (Pull.mk item.id pulled_item.name 1 is_rare)
    | none => DrawStep.yielded (Pull.mk item.id pulled_item.name 1 is_rare)

/-- How a consumed generator finished: normal completion, a `return value`
statement (the value is only the StopIteration payload and is never yielded
to the consumer), or an uncaught exception. -/
inductive GenOutcome where
  | completed
  | stoppedWith (v : Pull)
  | raised
deriving DecidableEq

/-- Runs the generator loop of SimplePullProvider._pull_items over the list of
sampled entries, with ks the oracle stream for the quantity draws: returns
the list of Pulls yielded to the consumer and the way the generator ended. -/
def pull_items_run (ep : EntityProvider) :
    List Item → (Nat → Nat) → List Pull × GenOutcome
  | [], _ => ([], GenOutcome.completed)
  | e :: rest, ks =>
    match draw_step ep e (ks 0) with
    | DrawStep.stopped v => ([], GenOutcome.stoppedWith v)
    | DrawStep.failed => ([], GenOutcome.raised)
    | DrawStep.yielded p =>
      let r := pull_items_run ep rest (fun n => ks (n + 1))
      (p :: r.1, r.2)

/-- Placeholder entry; never selected by sampling when the pool is nonempty,
since the sampling index is reduced mod the pool size. -/
def defaultItem : Item := Item.mk 0 "" 0

/-- Total weight of the entries, the denominator of random.choices. -/
def rate_sum (items : List Item) : ℚ := (items.map (fun e => e.rate)).sum

/-- The entry selected by random.choices for draw j, with pk the oracle stream
of selection indices. -/
def sample_entry (pool : Pool) (pk : Nat → Nat) (j : Nat) : Item :=
  pool.items.getD (pk j % pool.items.length) defaultItem

/-- The list of entries sampled by
`choices(pool.items, [item.rate for item in pool.items], k = pull_count)`. -/
def sample_entries (pool : Pool) (pk : Nat → Nat) (count : Nat) : List Item :=
  (List.range count).map (sample_entry pool pk)

/-- Embeds SimplePullProvider._pull_items: random.choices raises when the
population is empty (IndexError) or the total weight is nonpositive
(ValueError), modelled as an immediately-raised outcome; otherwise the
generator loop runs over the sampled entries. -/
def pull_items (ep : EntityProvider) (pool : Pool) (count : Nat)
    (pk ks : Nat → Nat) : List Pull × GenOutcome :=
  if pool.items.length = 0 ∨ rate_sum pool.items ≤ 0 then ([], GenOutcome.raised)
  else pull_items_run ep (sample_entries pool pk count) ks

/-- Embeds SimplePullProvider.pull: ValueError on an unknown pool code
(modelled as Except.error), then clamp the count and run the generator. -/
def pull (pools : List (String × Pool)) (ep : EntityProvider) (code : String)
    (n : Int) (pk ks : Nat → Nat) : Except String (List Pull × GenOutcome) :=
  match dictGet pools code with
  | none => Except.error notFoundMsg
  | some pool => Except.ok (pull_items ep pool (clamp_pull_count n).toNat pk ks)

/-! ### Helper definitions and lemmas -/

/-- The contribution of a single loot table group to a pool entry list: empty
when the group is rejected, one weighted entry per resolved item otherwise.
This is the body of one iteration of the fold in build_pool_items. -/
def group_entries (resolve : Nat → List VirtualItem) (g : LootTableGroup) : List Item :=
  if g.rate < 0 ∨ isclose g.rate 0 = true then []
  else if g.item_ids.length = 0 then []
  else
    let items := resolve_all resolve g.item_ids
    if items.length = 0 then []
    else items.map (fun it => Item.mk it.id it.name (g.rate / (items.length : ℚ)))

/-- The step function folded by build_pool_items. -/
def pool_step (resolve : Nat → List VirtualItem) (acc : List Item)
    (g : LootTableGroup) : List Item :=
  if g.rate < 0 ∨ isclose g.rate 0 = true then acc
  else if g.item_ids.length = 0 then acc
  else
    let items := resolve_all resolve g.item_ids
    if items.length = 0 then acc
    else acc ++ items.map (fun it => Item.mk it.id it.name (g.rate / (items.length : ℚ)))

/-- The step function folded by create_pools over the prototypes. -/
def reg_step (resolve : Nat → List VirtualItem) (pools : List (String × Pool))
    (proto : PoolPrototype) : List (String × Pool) :=
  if proto.is_available = false then pools
  else if (build_pool_items resolve proto.loot_table).length = 0 then pools
  else dictInsert pools proto.code
    (Pool.mk proto.name (build_pool_items resolve proto.loot_table))

/-- The registry invariant of the spec: a registered pool has at least one
entry and every entry has strictly positive weight. -/
def PoolOk (p : Pool) : Prop := p.items ≠ [] ∧ ∀ e ∈ p.items, 0 < e.rate

theorem build_pool_items_nil (resolve : Nat → List VirtualItem) :
    build_pool_items resolve [] = [] := rfl

theorem build_pool_items_eq_foldl (resolve : Nat → List VirtualItem)
    (gs : List LootTableGroup) :
    build_pool_items resolve gs = gs.foldl (pool_step resolve) [] := rfl

theorem pool_step_eq_append (resolve : Nat → List VirtualItem) (acc : List Item)
    (g : LootTableGroup) :
    pool_step resolve acc g = acc ++ group_entries resolve g := by
  unfold pool_step group_entries
  by_cases h1 : g.rate < 0 ∨ isclose g.rate 0 = true
  · simp [h1]
  · by_cases h2 : g.item_ids.length = 0
    · simp [h1, h2]
    · by_cases h3 : (resolve_all resolve g.item_ids).length = 0
      · simp [h1, h2, h3]
      · simp [h1, h2, h3]

theorem foldl_pool_step_acc (resolve : Nat → List VirtualItem)
    (gs : List LootTableGroup) :
    ∀ acc : List Item,
      gs.foldl (pool_step resolve) acc = acc ++ gs.foldl (pool_step resolve) [] := by
  induction gs with
  | nil => intro acc; simp
  | cons g gs ih =>
    intro acc
    rw [List.foldl_cons, List.foldl_cons, ih (pool_step resolve acc g),
      ih (pool_step resolve [] g), pool_step_eq_append, pool_step_eq_append]
    simp [List.append_assoc]

theorem build_pool_items_cons (resolve : Nat → List VirtualItem)
    (g : LootTableGroup) (gs : List LootTableGroup) :
    build_pool_items resolve (g :: gs)
      = group_entries resolve g ++ build_pool_items resolve gs := by
  rw [build_pool_items_eq_foldl, build_pool_items_eq_foldl, List.foldl_cons,
    foldl_pool_step_acc, pool_step_eq_append]
  simp

theorem build_pool_items_append (resolve : Nat → List VirtualItem)
    (gs1 gs2 : List LootTableGroup) :
    build_pool_items resolve (gs1 ++ gs2)
      = build_pool_items resolve gs1 ++ build_pool_items resolve gs2 := by
  induction gs1 with
  | nil => simp [build_pool_items]
  | cons g gs ih =>
    rw [List.cons_append, build_pool_items_cons, build_pool_items_cons, ih,
      List.append_assoc]

theorem find?_key_map_replace_self (k : String) (v : Pool) :
    ∀ d : List (String × Pool), d.any (fun p => p.1 == k) = true →
      (d.map (fun p => if p.1 == k then (k, v) else p)).find? (fun p => p.1 == k)
        = some (k, v) := by
  intro d
  induction d with
  | nil => intro h; simp at h
  | cons a d ih =>
    intro h
    rw [List.map_cons, List.find?_cons]
    by_cases ha : (a.1 == k) = true
    · rw [if_pos ha]
      have hkk : ((k, v).1 == k) = true := by simp
      simp only [hkk]
    · have hb : (a.1 == k) = false := by
        cases hx : (a.1 == k) with
        | false => rfl
        | true => exact absurd hx ha
      rw [if_neg ha]
      have h' : d.any (fun p => p.1 == k) = true := by
        rw [List.any_cons, hb] at h
        simpa using h
      simp only [hb]
      exact ih h'

theorem find?_key_map_replace_other (k c : String) (v : Pool) (hck : c ≠ k) :
    ∀ d : List (String × Pool),
      (d.map (fun p => if p.1 == k then (k, v) else p)).find? (fun p => p.1 == c)
        = d.find? (fun p => p.1 == c) := by
  intro d
  induction d with
  | nil => simp
  | cons a d ih =>
    rw [List.map_cons, List.find?_cons, List.find?_cons]
    by_cases ha : (a.1 == k) = true
    · have ha' : a.1 = k := by simpa using ha
      have hac : (a.1 == c) = false := by
        rw [ha']
        simp
        exact fun h => hck h.symm
      have hkc : ((k, v).1 == c) = false := by
        simp
        exact fun h => hck h.symm
      rw [if_pos ha]
      simp only [hkc, hac]
      exact ih
    · rw [if_neg ha]
      cases hac : (a.1 == c) with
      | true => simp only [hac]
      | false =>
        simp only [hac]
        exact ih

theorem find?_key_absent (k : String) :
    ∀ d : List (String × Pool), d.any (fun p => p.1 == k) = false →
      d.find? (fun p => p.1 == k) = none := by
  intro d
  induction d with
  | nil => intro _; rfl
  | cons a d ih =>
    intro h
    have ha : (a.1 == k) = false := by
      cases hx : (a.1 == k) with
      | false => rfl
      | true =>
        rw [List.any_cons, hx] at h
        simp at h
    have h' : d.any (fun p => p.1 == k) = false := by
      rw [List.any_cons, ha] at h
      simpa using h
    rw [List.find?_cons]
    simp only [ha]
    exact ih h'

/-- Python dict semantics of assignment followed by lookup: looking up the
assigned key gives the new value, any other key is unaffected. -/
theorem dictGet_dictInsert (d : List (String × Pool)) (k : String) (v : Pool)
    (c : String) :
    dictGet (dictInsert d k v) c = if c = k then some v else dictGet d c := by
  unfold dictInsert dictGet
  by_cases hany : d.any (fun p => p.1 == k) = true
  · rw [if_pos hany]
    by_cases hck : c = k
    · subst hck
      rw [find?_key_map_replace_self c v d hany]
      simp
    · rw [find?_key_map_replace_other k c v hck d]
      simp [hck]
  · have hany' : d.any (fun p => p.1 == k) = false := by
      cases hx : d.any (fun p => p.1 == k) with
      | false => rfl
      | true => exact absurd hx hany
    rw [if_neg hany, List.find?_append]
    by_cases hck : c = k
    · subst hck
      rw [find?_key_absent c d hany']
      simp
    · have hkc : (k == c) = false := by
        simp
        exact fun h => hck h.symm
      simp [List.find?_cons, hkc, hck]

theorem dictGet_isSome_iff_mem_keys (d : List (String × Pool)) (c : String) :
    (dictGet d c).isSome = true ↔ c ∈ d.map (fun p => p.1) := by
  unfold dictGet
  induction d with
  | nil => simp
  | cons a d ih =>
    by_cases ha : a.1 == c
    · have ha' : a.1 = c := by simpa using ha
      simp [List.find?_cons, ha, ha']
    · have ha' : a.1 ≠ c := by simpa using ha
      simp [List.find?_cons, ha, ih]
      exact fun h => absurd h.symm ha'

/-! ### Claim C4 -/

/-- Claim C4: for every pool registry, entity provider, pool code and integer
count, pull clamps the requested count into the inclusive range [1, 10]
before sampling and behaves on count n exactly as on the clamped count; in
particular pull with count 0 behaves identically to count 1, and count 100
identically to count 10. -/
theorem pull_clamps_count (pools : List (String × Pool)) (ep : EntityProvider)
    (code : String) (n : Int) (pk ks : Nat → Nat) :
    pull pools ep code n pk ks = pull pools ep code (clamp_pull_count n) pk ks
    ∧ 1 ≤ clamp_pull_count n ∧ clamp_pull_count n ≤ 10
    ∧ pull pools ep code 0 pk ks = pull pools ep code 1 pk ks
    ∧ pull pools ep code 100 pk ks = pull pools ep code 10 pk ks := by
  have hidem : ∀ m : Int, clamp_pull_count (clamp_pull_count m) = clamp_pull_count m := by
    intro m
    unfold clamp_pull_count DEFAULT_PULL_COUNT_MIN DEFAULT_PULL_COUNT_MAX
    omega
  have hpull : ∀ m : Int, pull pools ep code m pk ks
      = pull pools ep code (clamp_pull_count m) pk ks := by
    intro m
    unfold pull
    cases h : dictGet pools code with
    | none => rfl
    | some pool => rw [hidem]
  have h0 : clamp_pull_count 0 = clamp_pull_count 1 := by
    unfold clamp_pull_count DEFAULT_PULL_COUNT_MIN DEFAULT_PULL_COUNT_MAX
    omega
  have h100 : clamp_pull_count 100 = clamp_pull_count 10 := by
    unfold clamp_pull_count DEFAULT_PULL_COUNT_MIN DEFAULT_PULL_COUNT_MAX
    omega
  refine ⟨hpull n, ?_, ?_, ?_, ?_⟩
  · unfold clamp_pull_count DEFAULT_PULL_COUNT_MIN DEFAULT_PULL_COUNT_MAX
    omega
  · unfold clamp_pull_count DEFAULT_PULL_COUNT_MIN DEFAULT_PULL_COUNT_MAX
    omega
  · rw [hpull 0, hpull 1, h0]
  · rw [hpull 100, hpull 10, h100]

/-! ### Claim C5 -/

/-- Claim C5: for every pool code that is not registered, pull fails with the
not-found error (producing no Pull records, since no result list is
returned), and get_pool_name fails with the same not-found error. -/
theorem pull_unknown_pool_not_found (pools : List (String × Pool))
    (ep : EntityProvider) (code : String) (n : Int) (pk ks : Nat → Nat)
    (h : dictGet pools code = none) :
    pull pools ep code n pk ks = Except.error notFoundMsg
    ∧ get_pool_name pools code = Except.error notFoundMsg
    ∧ ∀ l o, pull pools ep code n pk ks ≠ Except.ok (l, o) := by
  refine ⟨?_, ?_, ?_⟩
  · unfold pull
    rw [h]
  · unfold get_pool_name
    rw [h]
  · intro l o hok
    unfold pull at hok
    rw [h] at hok
    exact Except.noConfusion hok

/-- Witness for C5 at the concrete unregistered code "nonexistent" over an
empty registry. -/
theorem pull_unknown_pool_not_found_witness :
    pull [] (EntityProvider.mk (fun _ => none) (fun _ => none) (fun _ => none))
        "nonexistent" 1 (fun _ => 0) (fun _ => 0) = Except.error notFoundMsg
    ∧ get_pool_name [] "nonexistent" = Except.error notFoundMsg
    ∧ ∀ l o, pull [] (EntityProvider.mk (fun _ => none) (fun _ => none) (fun _ => none))
        "nonexistent" 1 (fun _ => 0) (fun _ => 0) ≠ Except.ok (l, o) :=
  pull_unknown_pool_not_found [] _ "nonexistent" 1 (fun _ => 0) (fun _ => 0) rfl

/-! ### Claim C10 -/

/-- Claim C10: for every pool registry and code, has_pool is true exactly when
the code is an element of get_pool_codes, and get_pool_name returns the
registered pool name exactly when has_pool is true, failing with the
not-found error otherwise. -/
theorem query_ops_consistent (pools : List (String × Pool)) (code : String) :
    (has_pool pools code = true ↔ code ∈ get_pool_codes pools)
    ∧ (has_pool pools code = true →
        ∃ pool, dictGet pools code = some pool
          ∧ get_pool_name pools code = Except.ok pool.name)
    ∧ (has_pool pools code = false →
        get_pool_name pools code = Except.error notFoundMsg) := by
  refine ⟨?_, ?_, ?_⟩
  · unfold has_pool get_pool_codes
    exact dictGet_isSome_iff_mem_keys pools code
  · intro h
    unfold has_pool at h
    cases hd : dictGet pools code with
    | none => rw [hd] at h; simp at h
    | some pool =>
      refine ⟨pool, rfl, ?_⟩
      unfold get_pool_name
      rw [hd]
  · intro h
    unfold has_pool at h
    cases hd : dictGet pools code with
    | none =>
      unfold get_pool_name
      rw [hd]
    | some pool => rw [hd] at h; simp at h

/-- Witness for C10 on a concrete one-pool registry and its registered code. -/
theorem query_ops_consistent_witness :
    (has_pool [("a", Pool.mk "PoolA" [Item.mk 1 "x" 1])] "a" = true
      ↔ "a" ∈ get_pool_codes [("a", Pool.mk "PoolA" [Item.mk 1 "x" 1])])
    ∧ (has_pool [("a", Pool.mk "PoolA" [Item.mk 1 "x" 1])] "a" = true →
        ∃ pool, dictGet [("a", Pool.mk "PoolA" [Item.mk 1 "x" 1])] "a" = some pool
          ∧ get_pool_name [("a", Pool.mk "PoolA" [Item.mk 1 "x" 1])] "a"
              = Except.ok pool.name)
    ∧ (has_pool [("a", Pool.mk "PoolA" [Item.mk 1 "x" 1])] "a" = false →
        get_pool_name [("a", Pool.mk "PoolA" [Item.mk 1 "x" 1])] "a"
          = Except.error notFoundMsg) :=
  query_ops_consistent [("a", Pool.mk "PoolA" [Item.mk 1 "x" 1])] "a"

theorem tol_pos : 0 < tol := by
  unfold tol
  norm_num

/-- A group that passes the rate filter has a strictly positive rate. -/
theorem rate_pos_of_accepted (g : LootTableGroup)
    (h : ¬ (g.rate < 0 ∨ isclose g.rate 0 = true)) : 0 < g.rate := by
  push_neg at h
  obtain ⟨h1, h2⟩ := h
  have habs : ¬ |g.rate - 0| ≤ tol := by
    intro hc
    exact h2 (by simpa [isclose] using hc)
  rw [sub_zero] at habs
  have hge : 0 ≤ g.rate := h1
  rw [abs_of_nonneg hge] at habs
  have := not_le.mp habs
  exact lt_trans tol_pos this

theorem group_entries_rate_pos (resolve : Nat → List VirtualItem)
    (g : LootTableGroup) (e : Item) (he : e ∈ group_entries resolve g) :
    0 < e.rate := by
  unfold group_entries at he
  by_cases h1 : g.rate < 0 ∨ isclose g.rate 0 = true
  · rw [if_pos h1] at he
    simp at he
  · rw [if_neg h1] at he
    by_cases h2 : g.item_ids.length = 0
    · rw [if_pos h2] at he
      simp at he
    · rw [if_neg h2] at he
      simp only at he
      by_cases h3 : (resolve_all resolve g.item_ids).length = 0
      · rw [if_pos h3] at he
        simp at he
      · rw [if_neg h3] at he
        rw [List.mem_map] at he
        obtain ⟨it, _, rfl⟩ := he
        have hr : 0 < g.rate := rate_pos_of_accepted g h1
        have hn : 0 < ((resolve_all resolve g.item_ids).length : ℚ) := by
          have := Nat.pos_of_ne_zero h3
          exact_mod_cast this
        exact div_pos hr hn

theorem build_pool_items_rate_pos (resolve : Nat → List VirtualItem)
    (gs : List LootTableGroup) :
    ∀ e ∈ build_pool_items resolve gs, 0 < e.rate := by
  induction gs with
  | nil => intro e he; simp [build_pool_items] at he
  | cons g gs ih =>
    intro e he
    rw [build_pool_items_cons, List.mem_append] at he
    cases he with
    | inl h => exact group_entries_rate_pos resolve g e h
    | inr h => exact ih e h

theorem create_pools_eq_foldl (protos : List PoolPrototype)
    (resolve : Nat → List VirtualItem) :
    create_pools protos resolve = protos.foldl (reg_step resolve) [] := rfl

theorem foldl_reg_step_inv (resolve : Nat → List VirtualItem)
    (protos : List PoolPrototype) :
    ∀ d : List (String × Pool),
      (∀ c p, dictGet d c = some p → PoolOk p) →
      ∀ c p, dictGet (protos.foldl (reg_step resolve) d) c = some p → PoolOk p := by
  induction protos with
  | nil => intro d hd; simpa using hd
  | cons proto protos ih =>
    intro d hd
    rw [List.foldl_cons]
    apply ih
    intro c p hc
    unfold reg_step at hc
    by_cases hav : proto.is_available = false
    · rw [if_pos hav] at hc
      exact hd c p hc
    · rw [if_neg hav] at hc
      by_cases hlen : (build_pool_items resolve proto.loot_table).length = 0
      · rw [if_pos hlen] at hc
        exact hd c p hc
      · rw [if_neg hlen] at hc
        rw [dictGet_dictInsert] at hc
        by_cases hck : c = proto.code
        · rw [if_pos hck] at hc
          have hp : p = Pool.mk proto.name (build_pool_items resolve proto.loot_table) := by
            injection hc with h
            exact h.symm
          subst hp
          constructor
          · intro hnil
            apply hlen
            have hb : build_pool_items resolve proto.loot_table = [] := hnil
            rw [hb]
            rfl
          · intro e he
            exact build_pool_items_rate_pos resolve proto.loot_table e he
        · rw [if_neg hck] at hc
          exact hd c p hc

/-- Any pool found in the registry built by create_pools has a nonempty entry
list with strictly positive weights. -/
theorem create_pools_registered_ok (protos : List PoolPrototype)
    (resolve : Nat → List VirtualItem) (code : String) (pool : Pool)
    (h : dictGet (create_pools protos resolve) code = some pool) :
    pool.items ≠ [] ∧ ∀ e ∈ pool.items, 0 < e.rate := by
  rw [create_pools_eq_foldl] at h
  exact foldl_reg_step_inv resolve protos []
    (fun c p hc => by simp [dictGet] at hc) code pool h

/-! ### Claim C6 -/

/-- Claim C6: every pool registered by the builder has at least one entry and
every entry of every registered pool has strictly positive weight; a pool
whose groups were all rejected (so its entry list is empty) is never
registered. Pools are immutable after the build, so the invariant holds
after every subsequent operation. -/
theorem registered_pools_nonempty_positive (protos : List PoolPrototype)
    (resolve : Nat → List VirtualItem) (code : String) (pool : Pool)
    (h : dictGet (create_pools protos resolve) code = some pool) :
    pool.items ≠ [] ∧ ∀ e ∈ pool.items, 0 < e.rate :=
  create_pools_registered_ok protos resolve code pool h

/-- Witness for C6 on a concrete configuration with one valid pool. -/
theorem registered_pools_nonempty_positive_witness :
    (Pool.mk "P" [Item.mk 1 "a" 1]).items ≠ []
    ∧ ∀ e ∈ (Pool.mk "P" [Item.mk 1 "a" 1]).items, 0 < e.rate := by
  have h : dictGet (create_pools
      [PoolPrototype.mk "p" "P" true [LootTableGroup.mk 1 [1]]]
      (fun i => [VirtualItem.mk i "a"])) "p"
      = some (Pool.mk "P" [Item.mk 1 "a" 1]) := by
    norm_num [create_pools, build_pool_items, resolve_all, isclose, tol,
      dictInsert, dictGet]
  exact registered_pools_nonempty_positive
    [PoolPrototype.mk "p" "P" true [LootTableGroup.mk 1 [1]]]
    (fun i => [VirtualItem.mk i "a"]) "p" (Pool.mk "P" [Item.mk 1 "a" 1]) h

/-- The accepting branch of the group fold: an accepted group contributes one
weighted entry per resolved item. -/
theorem group_entries_accept (resolve : Nat → List VirtualItem)
    (g : LootTableGroup)
    (h1 : ¬ (g.rate < 0 ∨ isclose g.rate 0 = true))
    (h2 : g.item_ids ≠ [])
    (h3 : resolve_all resolve g.item_ids ≠ []) :
    group_entries resolve g
      = (resolve_all resolve g.item_ids).map
          (fun it => Item.mk it.id it.name
            (g.rate / ((resolve_all resolve g.item_ids).length : ℚ))) := by
  unfold group_entries
  rw [if_neg h1]
  have h2' : ¬ g.item_ids.length = 0 := by
    intro hc
    exact h2 (List.length_eq_zero.mp hc)
  rw [if_neg h2']
  have h3' : ¬ (resolve_all resolve g.item_ids).length = 0 := by
    intro hc
    exact h3 (List.length_eq_zero.mp hc)
  simp only
  rw [if_neg h3']

/-! ### Claim C3 -/

/-- Claim C3: a loot table group accepted by the builder that resolves to
n >= 1 concrete items contributes exactly n weighted entries to the pool
entry list, one per resolved item in resolution order, each with the
identical weight rate divided by n, appended between the entries of the
preceding and following groups; duplicate item ids across groups stay
separate entries because every accepted group appends its own map. -/
theorem group_contributes_one_entry_per_resolved_item
    (resolve : Nat → List VirtualItem) (g : LootTableGroup)
    (pre post : List LootTableGroup)
    (h1 : ¬ (g.rate < 0 ∨ isclose g.rate 0 = true))
    (h2 : g.item_ids ≠ [])
    (h3 : resolve_all resolve g.item_ids ≠ []) :
    build_pool_items resolve (pre ++ g :: post)
      = build_pool_items resolve pre
        ++ (resolve_all resolve g.item_ids).map
            (fun it => Item.mk it.id it.name
              (g.rate / ((resolve_all resolve g.item_ids).length : ℚ)))
        ++ build_pool_items resolve post
    ∧ ((resolve_all resolve g.item_ids).map
        (fun it => Item.mk it.id it.name
          (g.rate / ((resolve_all resolve g.item_ids).length : ℚ)))).length
      = (resolve_all resolve g.item_ids).length := by
  constructor
  · rw [build_pool_items_append, build_pool_items_cons,
      group_entries_accept resolve g h1 h2 h3, List.append_assoc]
  · exact List.length_map _ _

/-- Witness for C3: a group with rate 10 resolving to 5 items produces exactly
5 entries, each with weight 2. -/
theorem group_contributes_one_entry_per_resolved_item_witness :
    build_pool_items
        (fun i => if i = 1
          then [VirtualItem.mk 11 "a", VirtualItem.mk 12 "b", VirtualItem.mk 13 "c",
            VirtualItem.mk 14 "d", VirtualItem.mk 15 "e"]
          else [])
        ([] ++ LootTableGroup.mk 10 [1] :: [])
      = [Item.mk 11 "a" 2, Item.mk 12 "b" 2, Item.mk 13 "c" 2,
          Item.mk 14 "d" 2, Item.mk 15 "e" 2] := by
  have h := group_contributes_one_entry_per_resolved_item
    (fun i => if i = 1
      then [VirtualItem.mk 11 "a", VirtualItem.mk 12 "b", VirtualItem.mk 13 "c",
        VirtualItem.mk 14 "d", VirtualItem.mk 15 "e"]
      else [])
    (LootTableGroup.mk 10 [1]) [] []
    (by
      intro hc
      cases hc with
      | inl h => norm_num at h
      | inr h => norm_num [isclose, tol] at h)
    (by simp)
    (by simp [resolve_all])
  rw [h.1]
  norm_num [build_pool_items, resolve_all]

/-! ### Claim C9 -/

/-- Claim C9: the builder rejects every group whose rate is negative or within
tolerance of zero, contributing no entries; consequently a prototype whose
only loot table group is such a group never appears in get_pool_codes. -/
theorem nonpositive_rate_group_rejected (resolve : Nat → List VirtualItem)
    (g : LootTableGroup) (h : g.rate < 0 ∨ isclose g.rate 0 = true) :
    group_entries resolve g = []
    ∧ ∀ proto : PoolPrototype, proto.loot_table = [g] →
        get_pool_codes (create_pools [proto] resolve) = [] := by
  have hge : group_entries resolve g = [] := by
    unfold group_entries
    rw [if_pos h]
  refine ⟨hge, ?_⟩
  intro proto hlt
  have hbuild : build_pool_items resolve proto.loot_table = [] := by
    rw [hlt, build_pool_items_cons, hge, build_pool_items_nil]
    rfl
  rw [create_pools_eq_foldl]
  rw [List.foldl_cons, List.foldl_nil]
  unfold reg_step
  by_cases hav : proto.is_available = false
  · rw [if_pos hav]
    rfl
  · rw [if_neg hav, if_pos (by rw [hbuild]; rfl)]
    rfl

/-- Witness for C9 at rate 0 and rate -1: both groups are rejected and the
pools built from prototypes holding only them expose no pool codes. -/
theorem nonpositive_rate_group_rejected_witness :
    (group_entries (fun i => [VirtualItem.mk i "a"]) (LootTableGroup.mk 0 [1]) = []
      ∧ get_pool_codes (create_pools
          [PoolPrototype.mk "z" "Z" true [LootTableGroup.mk 0 [1]]]
          (fun i => [VirtualItem.mk i "a"])) = [])
    ∧ (group_entries (fun i => [VirtualItem.mk i "a"]) (LootTableGroup.mk (-1) [1]) = []
      ∧ get_pool_codes (create_pools
          [PoolPrototype.mk "w" "W" true [LootTableGroup.mk (-1) [1]]]
          (fun i => [VirtualItem.mk i "a"])) = []) := by
  have hz := nonpositive_rate_group_rejected (fun i => [VirtualItem.mk i "a"])
    (LootTableGroup.mk 0 [1]) (Or.inr (by norm_num [isclose, tol]))
  have hw := nonpositive_rate_group_rejected (fun i => [VirtualItem.mk i "a"])
    (LootTableGroup.mk (-1) [1]) (Or.inl (by norm_num))
  exact ⟨⟨hz.1, hz.2 _ rfl⟩, ⟨hw.1, hw.2 _ rfl⟩⟩

/-! ### Claim C7 -/

/-- Claim C7: for a sampled entry whose catalog item exists, every Pull the
draw yields has quantity in the half-open range given by the multi-unit
bounds of the item type when the type exists and is flagged multi-unit, and
quantity exactly 1 otherwise (type missing or not multi-unit); in every
case the rare flag is true exactly when the item rank exists and is flagged
rare. -/
theorem draw_quantity_and_rarity (ep : EntityProvider) (e : Item) (k : Nat)
    (item : CatalogItem) (p : Pull)
    (hi : ep.get_item e.id = some item)
    (hy : draw_step ep e k = DrawStep.yielded p) :
    (match ep.get_item_type item.item_type_id with
     | some t =>
       if t.is_multi_pull = true
       then t.multi_pull_min ≤ p.quantity ∧ p.quantity < t.multi_pull_max
       else p.quantity = 1
     | none => p.quantity = 1)
    ∧ (p.is_rare = true
        ↔ ∃ r, ep.get_item_rank item.rank_id = some r ∧ r.is_rare = true) := by
  cases ht : ep.get_item_type item.item_type_id with
  | none =>
    cases hr : ep.get_item_rank item.rank_id with
    | none =>
      simp only [draw_step, hi, ht, hr] at hy
      injection hy with hp
      subst hp
      refine ⟨rfl, ?_⟩
      simp
    | some r =>
      simp only [draw_step, hi, ht, hr] at hy
      injection hy with hp
      subst hp
      refine ⟨rfl, ?_⟩
      simp
  | some t =>
    by_cases hm : t.is_multi_pull = true
    · by_cases hlt : t.multi_pull_min < t.multi_pull_max
      · have hrc : rangeChoice t.multi_pull_min t.multi_pull_max k
            = some (t.multi_pull_min + (k : Int) % (t.multi_pull_max - t.multi_pull_min)) := by
          unfold rangeChoice
          rw [if_pos hlt]
        cases hr : ep.get_item_rank item.rank_id with
        | none =>
          simp only [draw_step, hi, ht, hr, hm, hrc, if_true] at hy
          injection hy with hp
          subst hp
          refine ⟨?_, by simp⟩
          simp only [hm, if_true]
          have h0 : 0 ≤ (k : Int) % (t.multi_pull_max - t.multi_pull_min) :=
            Int.emod_nonneg _ (by omega)
          have h1 : (k : Int) % (t.multi_pull_max - t.multi_pull_min)
              < t.multi_pull_max - t.multi_pull_min :=
            Int.emod_lt_of_pos _ (by omega)
          constructor
          · show t.multi_pull_min ≤ t.multi_pull_min + (k : Int) % (t.multi_pull_max - t.multi_pull_min)
            omega
          · show t.multi_pull_min + (k : Int) % (t.multi_pull_max - t.multi_pull_min) < t.multi_pull_max
            omega
        | some r =>
          simp only [draw_step, hi, ht, hr, hm, hrc, if_true] at hy
          injection hy with hp
          subst hp
          refine ⟨?_, by simp⟩
          simp only [hm, if_true]
          have h0 : 0 ≤ (k : Int) % (t.multi_pull_max - t.multi_pull_min) :=
            Int.emod_nonneg _ (by omega)
          have h1 : (k : Int) % (t.multi_pull_max - t.multi_pull_min)
              < t.multi_pull_max - t.multi_pull_min :=
            Int.emod_lt_of_pos _ (by omega)
          constructor
          · show t.multi_pull_min ≤ t.multi_pull_min + (k : Int) % (t.multi_pull_max - t.multi_pull_min)
            omega
          · show t.multi_pull_min + (k : Int) % (t.multi_pull_max - t.multi_pull_min) < t.multi_pull_max
            omega
      · have hrc : rangeChoice t.multi_pull_min t.multi_pull_max k = none := by
          unfold rangeChoice
          rw [if_neg hlt]
        simp only [draw_step, hi, ht, hm, hrc, if_true] at hy
        exact absurd hy (by simp)
    · have hm' : t.is_multi_pull = false := by
        cases hx : t.is_multi_pull with
        | false => rfl
        | true => exact absurd hx hm
      cases hr : ep.get_item_rank item.rank_id with
      | none =>
        simp only [draw_step, hi, ht, hr, hm'] at hy
        injection hy with hp
        subst hp
        refine ⟨?_, by simp⟩
        simp only [hm']
        simp
      | some r =>
        simp only [draw_step, hi, ht, hr, hm'] at hy
        injection hy with hp
        subst hp
        refine ⟨?_, by simp⟩
        simp only [hm']
        simp

/-- Witness for C7 at a concrete multi-unit item with bounds [2, 5), oracle
value 7 (quantity 2 + 7 mod 3 = 3) and a rank flagged rare. -/
theorem draw_quantity_and_rarity_witness :
    (match (EntityProvider.mk
        (fun i => if i = 1 then some (CatalogItem.mk 1 10 20) else none)
        (fun t => if t = 10 then some (ItemType.mk true 2 5) else none)
        (fun r => if r = 20 then some (ItemRank.mk true) else none)).get_item_type
          (CatalogItem.mk 1 10 20).item_type_id with
     | some t =>
       if t.is_multi_pull = true
       then t.multi_pull_min ≤ (Pull.mk 1 "a" 3 true).quantity
          ∧ (Pull.mk 1 "a" 3 true).quantity < t.multi_pull_max
       else (Pull.mk 1 "a" 3 true).quantity = 1
     | none => (Pull.mk 1 "a" 3 true).quantity = 1)
    ∧ ((Pull.mk 1 "a" 3 true).is_rare = true
        ↔ ∃ r, (EntityProvider.mk
            (fun i => if i = 1 then some (CatalogItem.mk 1 10 20) else none)
            (fun t => if t = 10 then some (ItemType.mk true 2 5) else none)
            (fun r => if r = 20 then some (ItemRank.mk true) else none)).get_item_rank
              (CatalogItem.mk 1 10 20).rank_id = some r
          ∧ r.is_rare = true) :=
  draw_quantity_and_rarity
    (EntityProvider.mk
      (fun i => if i = 1 then some (CatalogItem.mk 1 10 20) else none)
      (fun t => if t = 10 then some (ItemType.mk true 2 5) else none)
      (fun r => if r = 20 then some (ItemRank.mk true) else none))
    (Item.mk 1 "a" 1) 7 (CatalogItem.mk 1 10 20) (Pull.mk 1 "a" 3 true)
    (by decide) (by decide)

/-- Under well-formed multi-unit bounds the draw step never hits the
empty-range exception of choice(range(min, max)). -/
theorem draw_step_ne_failed (ep : EntityProvider) (e : Item) (k : Nat)
    (hmt : ∀ tid t, ep.get_item_type tid = some t → t.is_multi_pull = true →
      t.multi_pull_min < t.multi_pull_max) :
    draw_step ep e k ≠ DrawStep.failed := by
  intro hc
  cases hi : ep.get_item e.id with
  | none => simp [draw_step, hi] at hc
  | some item =>
    cases ht : ep.get_item_type item.item_type_id with
    | none =>
      cases hr : ep.get_item_rank item.rank_id with
      | none => simp [draw_step, hi, ht, hr] at hc
      | some r => simp [draw_step, hi, ht, hr] at hc
    | some t =>
      by_cases hm : t.is_multi_pull = true
      · have hlt := hmt item.item_type_id t ht hm
        have hrc : rangeChoice t.multi_pull_min t.multi_pull_max k
            = some (t.multi_pull_min + (k : Int) % (t.multi_pull_max - t.multi_pull_min)) := by
          unfold rangeChoice
          rw [if_pos hlt]
        cases hr : ep.get_item_rank item.rank_id with
        | none => simp [draw_step, hi, ht, hr, hm, hrc] at hc
        | some r => simp [draw_step, hi, ht, hr, hm, hrc] at hc
      · have hm' : t.is_multi_pull = false := by
          cases hx : t.is_multi_pull with
          | false => rfl
          | true => exact absurd hx hm
        cases hr : ep.get_item_rank item.rank_id with
        | none => simp [draw_step, hi, ht, hr, hm'] at hc
        | some r => simp [draw_step, hi, ht, hr, hm'] at hc

/-- When the sampled entry resolves in the catalog and the multi-unit bounds
are well formed, the draw step yields a Pull. -/
theorem draw_step_yields (ep : EntityProvider) (e : Item) (k : Nat)
    (hit : (ep.get_item e.id).isSome = true)
    (hmt : ∀ tid t, ep.get_item_type tid = some t → t.is_multi_pull = true →
      t.multi_pull_min < t.multi_pull_max) :
    ∃ p, draw_step ep e k = DrawStep.yielded p := by
  cases hi : ep.get_item e.id with
  | none => rw [hi] at hit; simp at hit
  | some item =>
    cases hd : draw_step ep e k with
    | yielded p => exact ⟨p, rfl⟩
    | failed => exact absurd hd (draw_step_ne_failed ep e k hmt)
    | stopped v =>
      exfalso
      cases ht : ep.get_item_type item.item_type_id with
      | none =>
        cases hr : ep.get_item_rank item.rank_id with
        | none => simp [draw_step, hi, ht, hr] at hd
        | some r => simp [draw_step, hi, ht, hr] at hd
      | some t =>
        by_cases hm : t.is_multi_pull = true
        · have hlt := hmt item.item_type_id t ht hm
          have hrc : rangeChoice t.multi_pull_min t.multi_pull_max k
              = some (t.multi_pull_min + (k : Int) % (t.multi_pull_max - t.multi_pull_min)) := by
            unfold rangeChoice
            rw [if_pos hlt]
          cases hr : ep.get_item_rank item.rank_id with
          | none => simp [draw_step, hi, ht, hr, hm, hrc] at hd
          | some r => simp [draw_step, hi, ht, hr, hm, hrc] at hd
        · have hm' : t.is_multi_pull = false := by
            cases hx : t.is_multi_pull with
            | false => rfl
            | true => exact absurd hx hm
          cases hr : ep.get_item_rank item.rank_id with
          | none => simp [draw_step, hi, ht, hr, hm'] at hd
          | some r => simp [draw_step, hi, ht, hr, hm'] at hd

theorem pull_items_run_no_raise (ep : EntityProvider) :
    ∀ (entries : List Item),
      (∀ e ∈ entries, ∀ k, draw_step ep e k ≠ DrawStep.failed) →
      ∀ ks, (pull_items_run ep entries ks).2 ≠ GenOutcome.raised := by
  intro entries
  induction entries with
  | nil => intro _ ks; simp [pull_items_run]
  | cons e rest ih =>
    intro h ks
    cases hd : draw_step ep e (ks 0) with
    | stopped v => simp [pull_items_run, hd]
    | failed => exact absurd hd (h e (by simp) (ks 0))
    | yielded p =>
      simp only [pull_items_run, hd]
      exact ih (fun e' he' k => h e' (by simp [he']) k) (fun n => ks (n + 1))

theorem pull_items_run_all_yield (ep : EntityProvider) :
    ∀ (entries : List Item) (ks : Nat → Nat),
      (∀ e ∈ entries, ∀ k, ∃ p, draw_step ep e k = DrawStep.yielded p) →
      (pull_items_run ep entries ks).2 = GenOutcome.completed
      ∧ (pull_items_run ep entries ks).1.length = entries.length
      ∧ ∀ j (hj : j < (pull_items_run ep entries ks).1.length),
          DrawStep.yielded ((pull_items_run ep entries ks).1.get ⟨j, hj⟩)
            = draw_step ep (entries.getD j defaultItem) (ks j) := by
  intro entries
  induction entries with
  | nil =>
    intro ks _
    refine ⟨rfl, rfl, ?_⟩
    intro j hj
    simp [pull_items_run] at hj
  | cons e rest ih =>
    intro ks h
    obtain ⟨p, hp⟩ := h e (by simp) (ks 0)
    have hrest := ih (fun n => ks (n + 1)) (fun e' he' k => h e' (by simp [he']) k)
    have hrun : pull_items_run ep (e :: rest) ks
        = (p :: (pull_items_run ep rest (fun n => ks (n + 1))).1,
           (pull_items_run ep rest (fun n => ks (n + 1))).2) := by
      simp only [pull_items_run, hp]
    rw [hrun]
    refine ⟨hrest.1, by simp [hrest.2.1], ?_⟩
    intro j hj
    cases j with
    | zero => simpa using hp.symm
    | succ j' =>
      have hj' : j' < (pull_items_run ep rest (fun n => ks (n + 1))).1.length := by
        simpa using hj
      have := hrest.2.2 j' hj'
      simpa using this

theorem rate_sum_pos (items : List Item) (hne : items ≠ [])
    (h : ∀ e ∈ items, 0 < e.rate) : 0 < rate_sum items := by
  unfold rate_sum
  apply List.sum_pos
  · intro a ha
    rw [List.mem_map] at ha
    obtain ⟨e, he, rfl⟩ := ha
    exact h e he
  · intro hc
    exact hne (List.map_eq_nil_iff.mp hc)

theorem sample_entry_mem (pool : Pool) (pk : Nat → Nat) (j : Nat)
    (h : pool.items ≠ []) : sample_entry pool pk j ∈ pool.items := by
  unfold sample_entry
  have hlen : 0 < pool.items.length := List.length_pos.mpr h
  have hlt : pk j % pool.items.length < pool.items.length := Nat.mod_lt _ hlen
  rw [List.getD_eq_getElem _ _ hlt]
  exact List.getElem_mem hlt

/-! ### Claim C2 -/

/-- Counterexample to claim C2 as stated: a registered pool whose single item
has a catalog type flagged multi-unit with bounds [2, 2) makes the consumed
pull sequence raise (choice over the empty range(2, 2) throws IndexError),
so not every catalog state with arbitrary multiUnitMin/multiUnitMax bounds
degrades without an exception. -/
theorem pull_raises_on_empty_multi_range :
    pull (create_pools [PoolPrototype.mk "p" "P" true [LootTableGroup.mk 1 [1]]]
        (fun i => [VirtualItem.mk i "itemA"]))
      (EntityProvider.mk
        (fun i => if i = 1 then some (CatalogItem.mk 1 10 20) else none)
        (fun t => if t = 10 then some (ItemType.mk true 2 2) else none)
        (fun r => if r = 20 then some (ItemRank.mk false) else none))
      "p" 1 (fun _ => 0) (fun _ => 0)
      = Except.ok ([], GenOutcome.raised) := by
  norm_num [pull, create_pools, build_pool_items, resolve_all, isclose, tol, dictInsert,
    dictGet, pull_items, sample_entries, sample_entry, rate_sum, clamp_pull_count,
    pull_items_run, draw_step, rangeChoice, defaultItem, notFoundMsg,
    DEFAULT_PULL_COUNT_MIN, DEFAULT_PULL_COUNT_MAX]

/-- Claim C2 amended: provided every catalog item type flagged multi-unit has
multiUnitMin strictly below multiUnitMax, consuming the sequence returned by
pull over a registry built by the pool builder never raises, and the only
failure pull surfaces is the not-found condition for an unregistered pool
code. (The unamended claim, which allows any configured multi-unit bounds,
is refuted by the empty-range counterexample.) -/
theorem pull_never_raises_of_wellformed_multi_bounds
    (protos : List PoolPrototype) (resolve : Nat → List VirtualItem)
    (ep : EntityProvider) (code : String) (n : Int) (pk ks : Nat → Nat)
    (hmt : ∀ tid t, ep.get_item_type tid = some t → t.is_multi_pull = true →
      t.multi_pull_min < t.multi_pull_max) :
    (∀ l o, pull (create_pools protos resolve) ep code n pk ks = Except.ok (l, o)
      → o ≠ GenOutcome.raised)
    ∧ (∀ msg, pull (create_pools protos resolve) ep code n pk ks = Except.error msg
      → dictGet (create_pools protos resolve) code = none ∧ msg = notFoundMsg) := by
  constructor
  · intro l o hok ho
    subst ho
    unfold pull at hok
    cases hd : dictGet (create_pools protos resolve) code with
    | none =>
      rw [hd] at hok
      exact Except.noConfusion hok
    | some pool =>
      rw [hd] at hok
      injection hok with h1
      obtain ⟨hne, hpos⟩ := create_pools_registered_ok protos resolve code pool hd
      have hlen : ¬ pool.items.length = 0 := fun hc => hne (List.length_eq_zero.mp hc)
      have hsum : ¬ rate_sum pool.items ≤ 0 := not_le.mpr (rate_sum_pos _ hne hpos)
      unfold pull_items at h1
      rw [if_neg (not_or.mpr ⟨hlen, hsum⟩)] at h1
      have hnr := pull_items_run_no_raise ep
        (sample_entries pool pk (clamp_pull_count n).toNat)
        (fun e _ k => draw_step_ne_failed ep e k hmt) ks
      rw [h1] at hnr
      exact hnr rfl
  · intro msg herr
    unfold pull at herr
    cases hd : dictGet (create_pools protos resolve) code with
    | none =>
      rw [hd] at herr
      injection herr with h
      exact ⟨rfl, h.symm⟩
    | some pool =>
      rw [hd] at herr
      exact Except.noConfusion herr

/-- Witness for the amended C2 on a concrete well-formed configuration. -/
theorem pull_never_raises_of_wellformed_multi_bounds_witness :
    (∀ l o, pull (create_pools [PoolPrototype.mk "p" "P" true [LootTableGroup.mk 1 [1]]]
        (fun i => [VirtualItem.mk i "itemA"]))
      (EntityProvider.mk
        (fun i => if i = 1 then some (CatalogItem.mk 1 10 20) else none)
        (fun t => if t = 10 then some (ItemType.mk true 2 5) else none)
        (fun r => if r = 20 then some (ItemRank.mk false) else none))
      "p" 4 (fun _ => 0) (fun _ => 0) = Except.ok (l, o)
      → o ≠ GenOutcome.raised)
    ∧ (∀ msg, pull (create_pools [PoolPrototype.mk "p" "P" true [LootTableGroup.mk 1 [1]]]
        (fun i => [VirtualItem.mk i "itemA"]))
      (EntityProvider.mk
        (fun i => if i = 1 then some (CatalogItem.mk 1 10 20) else none)
        (fun t => if t = 10 then some (ItemType.mk true 2 5) else none)
        (fun r => if r = 20 then some (ItemRank.mk false) else none))
      "p" 4 (fun _ => 0) (fun _ => 0) = Except.error msg
      → dictGet (create_pools [PoolPrototype.mk "p" "P" true [LootTableGroup.mk 1 [1]]]
          (fun i => [VirtualItem.mk i "itemA"])) "p" = none ∧ msg = notFoundMsg) :=
  pull_never_raises_of_wellformed_multi_bounds
    [PoolPrototype.mk "p" "P" true [LootTableGroup.mk 1 [1]]]
    (fun i => [VirtualItem.mk i "itemA"])
    (EntityProvider.mk
      (fun i => if i = 1 then some (CatalogItem.mk 1 10 20) else none)
      (fun t => if t = 10 then some (ItemType.mk true 2 5) else none)
      (fun r => if r = 20 then some (ItemRank.mk false) else none))
    "p" 4 (fun _ => 0) (fun _ => 0)
    (by
      intro tid t hsome hm
      by_cases h10 : tid = 10
      · subst h10
        simp at hsome
        rw [← hsome]
        norm_num
      · simp [h10] at hsome)

/-! ### Claim C8 -/

/-- Counterexample to claim C8 as stated: a registered pool whose every entry
resolves in the catalog can still fail to produce one Pull per draw, because
a resolvable item whose type is multi-unit with the empty range [3, 3) makes
the generator raise before yielding anything: the consumer gets 0 Pulls for
a clamped request of 3 draws. -/
theorem pull_shape_broken_on_empty_multi_range :
    pull (create_pools [PoolPrototype.mk "q" "Q" true [LootTableGroup.mk 1 [2]]]
        (fun i => [VirtualItem.mk i "itemB"]))
      (EntityProvider.mk
        (fun i => if i = 2 then some (CatalogItem.mk 2 30 40) else none)
        (fun t => if t = 30 then some (ItemType.mk true 3 3) else none)
        (fun r => if r = 40 then some (ItemRank.mk false) else none))
      "q" 3 (fun _ => 0) (fun _ => 0)
      = Except.ok ([], GenOutcome.raised)
    ∧ ((EntityProvider.mk
        (fun i => if i = 2 then some (CatalogItem.mk 2 30 40) else none)
        (fun t => if t = 30 then some (ItemType.mk true 3 3) else none)
        (fun r => if r = 40 then some (ItemRank.mk false) else none)).get_item 2).isSome
      = true
    ∧ (clamp_pull_count 3).toNat = 3
    ∧ ([] : List Pull).length ≠ 3 := by
  refine ⟨?_, by norm_num, by decide, by norm_num⟩
  norm_num [pull, create_pools, build_pool_items, resolve_all, isclose, tol, dictInsert,
    dictGet, pull_items, sample_entries, sample_entry, rate_sum, clamp_pull_count,
    pull_items_run, draw_step, rangeChoice, defaultItem, notFoundMsg,
    DEFAULT_PULL_COUNT_MIN, DEFAULT_PULL_COUNT_MAX]

/-- Claim C8 amended: for a registered pool, provided every sampled entry's
item id resolves in the catalog and every catalog item type flagged
multi-unit has multiUnitMin strictly below multiUnitMax, fully consuming
the sequence returned by pull yields exactly one Pull per requested draw —
the clamped count of Pulls, the j-th of which is the Pull of draw j.
(The unamended claim, with no condition on multi-unit bounds, is refuted by
the empty-range counterexample.) -/
theorem pull_yields_one_pull_per_draw
    (protos : List PoolPrototype) (resolve : Nat → List VirtualItem)
    (ep : EntityProvider) (code : String) (n : Int) (pk ks : Nat → Nat)
    (pool : Pool)
    (hreg : dictGet (create_pools protos resolve) code = some pool)
    (hres : ∀ e ∈ sample_entries pool pk (clamp_pull_count n).toNat,
      (ep.get_item e.id).isSome = true)
    (hmt : ∀ tid t, ep.get_item_type tid = some t → t.is_multi_pull = true →
      t.multi_pull_min < t.multi_pull_max) :
    ∃ l, pull (create_pools protos resolve) ep code n pk ks
        = Except.ok (l, GenOutcome.completed)
      ∧ l.length = (clamp_pull_count n).toNat
      ∧ ∀ j (hj : j < l.length),
          DrawStep.yielded (l.get ⟨j, hj⟩)
            = draw_step ep (sample_entry pool pk j) (ks j) := by
  obtain ⟨hne, hpos⟩ := create_pools_registered_ok protos resolve code pool hreg
  have hall : ∀ e ∈ sample_entries pool pk (clamp_pull_count n).toNat, ∀ k,
      ∃ p, draw_step ep e k = DrawStep.yielded p := by
    intro e he k
    exact draw_step_yields ep e k (hres e he) hmt
  have hrun := pull_items_run_all_yield ep
    (sample_entries pool pk (clamp_pull_count n).toNat) ks hall
  refine ⟨(pull_items_run ep (sample_entries pool pk (clamp_pull_count n).toNat) ks).1,
    ?_, ?_, ?_⟩
  · unfold pull
    rw [hreg]
    have hlen : ¬ pool.items.length = 0 := fun hc => hne (List.length_eq_zero.mp hc)
    have hsum : ¬ rate_sum pool.items ≤ 0 := not_le.mpr (rate_sum_pos _ hne hpos)
    show Except.ok (pull_items ep pool (clamp_pull_count n).toNat pk ks) = _
    unfold pull_items
    rw [if_neg (not_or.mpr ⟨hlen, hsum⟩)]
    rw [← hrun.1]
  · rw [hrun.2.1]
    unfold sample_entries
    rw [List.length_map, List.length_range]
  · intro j hj
    have hstep := hrun.2.2 j hj
    have hjc : j < (clamp_pull_count n).toNat := by
      rw [hrun.2.1] at hj
      simpa [sample_entries] using hj
    have hgd : (sample_entries pool pk (clamp_pull_count n).toNat).getD j defaultItem
        = sample_entry pool pk j := by
      unfold sample_entries
      rw [List.getD_eq_getElem _ _ (by simpa using hjc)]
      simp
    rw [hgd] at hstep
    exact hstep

/-- Witness for the amended C8 on a concrete healthy configuration with three
requested draws. -/
theorem pull_yields_one_pull_per_draw_witness :
    ∃ l, pull (create_pools [PoolPrototype.mk "h" "H" true [LootTableGroup.mk 1 [3]]]
        (fun i => [VirtualItem.mk i "itemC"]))
      (EntityProvider.mk
        (fun i => if i = 3 then some (CatalogItem.mk 3 50 60) else none)
        (fun t => if t = 50 then some (ItemType.mk false 0 0) else none)
        (fun r => if r = 60 then some (ItemRank.mk true) else none))
      "h" 3 (fun _ => 0) (fun _ => 0)
        = Except.ok (l, GenOutcome.completed)
      ∧ l.length = (clamp_pull_count 3).toNat
      ∧ ∀ j (hj : j < l.length),
          DrawStep.yielded (l.get ⟨j, hj⟩)
            = draw_step
                (EntityProvider.mk
                  (fun i => if i = 3 then some (CatalogItem.mk 3 50 60) else none)
                  (fun t => if t = 50 then some (ItemType.mk false 0 0) else none)
                  (fun r => if r = 60 then some (ItemRank.mk true) else none))
                (sample_entry (Pool.mk "H" [Item.mk 3 "itemC" 1]) (fun _ => 0) j)
                ((fun _ => 0) j) :=
  pull_yields_one_pull_per_draw
    [PoolPrototype.mk "h" "H" true [LootTableGroup.mk 1 [3]]]
    (fun i => [VirtualItem.mk i "itemC"])
    (EntityProvider.mk
      (fun i => if i = 3 then some (CatalogItem.mk 3 50 60) else none)
      (fun t => if t = 50 then some (ItemType.mk false 0 0) else none)
      (fun r => if r = 60 then some (ItemRank.mk true) else none))
    "h" 3 (fun _ => 0) (fun _ => 0) (Pool.mk "H" [Item.mk 3 "itemC" 1])
    (by
      norm_num [create_pools, build_pool_items, resolve_all, isclose, tol,
        dictInsert, dictGet])
    (by
      intro e he
      norm_num [sample_entries, sample_entry, defaultItem, clamp_pull_count,
        DEFAULT_PULL_COUNT_MIN, DEFAULT_PULL_COUNT_MAX] at he
      rw [← he.2]
      norm_num)
    (by
      intro tid t hsome hm
      by_cases h50 : tid = 50
      · subst h50
        simp at hsome
        rw [← hsome] at hm
        simp at hm
      · simp [h50] at hsome)

/-! ### Claim C1 -/

/-- Claim C1 evidence: for a registered pool whose single entry id 7 is absent
from the catalog, pull(code, 5) short-circuits on the first draw, but the
consumer receives ZERO Pull records, not one: the generator executes
`return Pull(entry.id, entry.name, 1, False)`, and in Python a return inside
a generator ends iteration without yielding its value — the degraded Pull
becomes only the StopIteration payload (GenOutcome.stoppedWith), invisible
to a for-loop. The spec and claim, which say the degraded Pull is yielded
for that draw, describe the evident intent of the constructed Pull value;
the code discards it, so this is a code bug, while the short-circuit part
(no further draws processed) does hold. -/
theorem pull_missing_item_short_circuits_without_yield :
    pull (create_pools [PoolPrototype.mk "c1pool" "C1" true [LootTableGroup.mk 1 [7]]]
        (fun i => [VirtualItem.mk i "itemA"]))
      (EntityProvider.mk (fun _ => none) (fun _ => none) (fun _ => none))
      "c1pool" 5 (fun _ => 0) (fun _ => 0)
      = Except.ok ([], GenOutcome.stoppedWith (Pull.mk 7 "itemA" 1 false)) := by
  norm_num [pull, create_pools, build_pool_items, resolve_all, isclose, tol, dictInsert,
    dictGet, pull_items, sample_entries, sample_entry, rate_sum, clamp_pull_count,
    pull_items_run, draw_step, rangeChoice, defaultItem, notFoundMsg,
    DEFAULT_PULL_COUNT_MIN, DEFAULT_PULL_COUNT_MAX]

end Gacha
